import Mathlib

/-!
Verification of the anki note-pipeline tools against their natural-language
specification.  Strings are modelled as `List Char`; Python `str.replace`
chains are modelled as sequential single-purpose passes with leftmost,
non-overlapping match semantics, exactly as CPython performs them.

Sources embedded here:
  - tools/anki/html_frontback_to_tsv.py  (heading scanner, section slicer, row walk)
  - tools/anki/update_notes_from_tsv.py  (escape reader, identity resolver, reconciler, apply phase)
  - tools/anki/export/cnsf_to_import_tsv.py  (TSV writer with overwrite guard)
-/

namespace Anki

/-- Python whitespace set used by `str.strip` / `\s` on the ASCII inputs of this repo. -/
def isPyWs (c : Char) : Bool :=
  c = ' ' || c = '\t' || c = '\n' || c = '\r' || c = '\x0b' || c = '\x0c'

/-- Python `str.strip()`: drop leading and trailing whitespace. -/
def pyStrip (s : List Char) : List Char :=
  ((s.dropWhile isPyWs).reverse.dropWhile isPyWs).reverse

/-- One pass of `v.replace("\r\n", "\n")` (leftmost, non-overlapping). -/
def crlf2lf : List Char → List Char
  | [] => []
  | [c] => [c]
  | c :: d :: rest =>
    if c = '\r' ∧ d = '\n' then '\n' :: crlf2lf rest
    else c :: crlf2lf (d :: rest)

/-- One pass of `v.replace("\r", "\n")`. -/
def cr2lf : List Char → List Char
  | [] => []
  | c :: rest => if c = '\r' then '\n' :: cr2lf rest else c :: cr2lf rest

/-- One pass of `v.replace("\t", "\\t")`: a tab becomes the two characters backslash, t. -/
def escTab : List Char → List Char
  | [] => []
  | c :: rest => if c = '\t' then '\\' :: 't' :: escTab rest else c :: escTab rest

/-- One pass of `v.replace("\n", "\\n")`: a newline becomes the two characters backslash, n. -/
def escNl : List Char → List Char
  | [] => []
  | c :: rest => if c = '\n' then '\\' :: 'n' :: escNl rest else c :: escNl rest

/-- `_tsv_safe` from cnsf_to_import_tsv.py: normalise CR and CRLF to LF, then
escape tabs and newlines so each record stays on one physical line. -/
def _tsv_safe (v : List Char) : List Char :=
  escNl (escTab (cr2lf (crlf2lf v)))

/-- `_nl` from update_notes_from_tsv.py: the reader turns each two-character
backslash-n sequence back into a newline.  Tabs are not unescaped. -/
def _nl : List Char → List Char
  | [] => []
  | [c] => [c]
  | c :: d :: rest =>
    if c = '\\' ∧ d = 'n' then '\n' :: _nl rest
    else c :: _nl (d :: rest)

/-- ASCII uppercase of a whole string, Python `str.upper` on the ASCII titles here. -/
def toUpperL (s : List Char) : List Char := s.map Char.toUpper

/-- Membership test on a list of keys, Python `x in dict` over the dict's keys. -/
def keyMem (l : List (List Char)) (a : List Char) : Bool :=
  match l with
  | [] => false
  | x :: xs => if x = a then true else keyMem xs a

/-- Lookup in an association list, Python `dict.get`. -/
def getAssoc {β : Type} (m : List (List Char × β)) (k : List Char) : Option β :=
  match m with
  | [] => none
  | (k0, v) :: t => if k0 = k then some v else getAssoc t k

/-- Assignment into an association list, Python `dict[k] = v`: an existing key keeps
its position and gets the new value, a new key is appended. -/
def setAssoc {β : Type} (m : List (List Char × β)) (k : List Char) (v : β) : List (List Char × β) :=
  match m with
  | [] => [(k, v)]
  | (k0, v0) :: t => if k0 = k then (k, v) :: t else (k0, v0) :: setAssoc t k v

/-- Python `int(s)` on the decimal digit strings that occur in this pipeline. -/
def charsToInt (s : List Char) : Int :=
  Int.ofNat (s.foldl (fun a c => a * 10 + (c.toNat - 48)) 0)

/-- Python `str(n)` for the integer note ids. -/
def intToChars (n : Int) : List Char :=
  if n < 0 then '-' :: Nat.toDigits 10 n.natAbs else Nat.toDigits 10 n.natAbs

/-- One pass of `s.replace("&amp;", "&")`, from `_unescape_basic`. -/
def unAmp : List Char → List Char
  | '&' :: 'a' :: 'm' :: 'p' :: ';' :: rest => '&' :: unAmp rest
  | c :: rest => c :: unAmp rest
  | [] => []

/-- One pass of `s.replace("&lt;", "<")`. -/
def unLt : List Char → List Char
  | '&' :: 'l' :: 't' :: ';' :: rest => '<' :: unLt rest
  | c :: rest => c :: unLt rest
  | [] => []

/-- One pass of `s.replace("&gt;", ">")`. -/
def unGt : List Char → List Char
  | '&' :: 'g' :: 't' :: ';' :: rest => '>' :: unGt rest
  | c :: rest => c :: unGt rest
  | [] => []

/-- One pass of `s.replace("&quot;", "\"")`. -/
def unQuot : List Char → List Char
  | '&' :: 'q' :: 'u' :: 'o' :: 't' :: ';' :: rest => '"' :: unQuot rest
  | c :: rest => c :: unQuot rest
  | [] => []

/-- One pass of `s.replace("&#39;", "'")`. -/
def unNum39 : List Char → List Char
  | '&' :: '#' :: '3' :: '9' :: ';' :: rest => '\'' :: unNum39 rest
  | c :: rest => c :: unNum39 rest
  | [] => []

/-- One pass of `s.replace("&nbsp;", " ")`. -/
def unNbsp : List Char → List Char
  | '&' :: 'n' :: 'b' :: 's' :: 'p' :: ';' :: rest => ' ' :: unNbsp rest
  | c :: rest => c :: unNbsp rest
  | [] => []

/-- `_unescape_basic` from html_frontback_to_tsv.py: the six replacements are applied
sequentially over the whole string, in source order. -/
def _unescape_basic (s : List Char) : List Char :=
  unNbsp (unNum39 (unQuot (unGt (unLt (unAmp s)))))

/-- Match of the regex `<[^>]+>` at the head of the list; returns the match length.
The inner part is at least one character and runs to the first `>`. -/
def tagMatchAt : List Char → Option Nat
  | '<' :: c :: rest =>
    if c = '>' then none
    else
      if ((c :: rest).takeWhile (fun x => !(x = '>'))).length < (c :: rest).length then
        some (1 + ((c :: rest).takeWhile (fun x => !(x = '>'))).length + 1)
      else none
  | _ => none

/-- `TAG_RE.sub("", s)`: delete every leftmost, non-overlapping `<[^>]+>` match.
Fuel-driven so that the kernel can evaluate it; `s.length + 1` fuel suffices. -/
def stripTagsAux : Nat → List Char → List Char
  | 0, s => s
  | _, [] => []
  | fuel + 1, c :: rest =>
    match tagMatchAt (c :: rest) with
    | some len => stripTagsAux fuel ((c :: rest).drop len)
    | none => c :: stripTagsAux fuel rest

/-- `re.sub(r"\s+", " ", t)`: collapse each maximal whitespace run to one space. -/
def collapseWs : List Char → List Char
  | [] => []
  | c :: cs =>
    if isPyWs c then
      match collapseWs cs with
      | ' ' :: t => ' ' :: t
      | t => ' ' :: t
    else c :: collapseWs cs

/-- `_strip_tags` from html_frontback_to_tsv.py: remove HTML tags, collapse
whitespace, and strip. -/
def _strip_tags (s : List Char) : List Char :=
  pyStrip (collapseWs (stripTagsAux (s.length + 1) s))

/-- A located heading match: level (2 or 3), decoded title, start offset of the
opening tag, and the offset just past the closing tag. -/
structure Heading where
  lvl : Nat
  title : List Char
  start : Nat
  stop : Nat
deriving DecidableEq

/-- Does the list begin with a closing tag of the given level digit, `</hN>`,
case-insensitively on the letter (re.IGNORECASE)? -/
def isCloseAt (d : Char) : List Char → Bool
  | '<' :: '/' :: h :: d2 :: '>' :: _ => (h.toLower = 'h') && (d2 = d)
  | _ => false

/-- Index of the first `</hN>` in the list, the target of the lazy `(.*?)` group. -/
def findClose (d : Char) : List Char → Option Nat
  | [] => none
  | c :: rest =>
    if isCloseAt d (c :: rest) then some 0
    else (findClose d rest).map (fun k => k + 1)

/-- Match of `<hN[^>]*>` at the head of the list (case-insensitive on the letter);
returns the length of the opening tag. -/
def matchOpen (d : Char) : List Char → Option Nat
  | '<' :: c1 :: c2 :: rest =>
    if (c1.toLower = 'h') && (c2 = d) then
      if (rest.takeWhile (fun x => !(x = '>'))).length < rest.length then
        some (3 + (rest.takeWhile (fun x => !(x = '>'))).length + 1)
      else none
    else none
  | _ => none

/-- Match of the full heading regex `<hN[^>]*>(.*?)</hN>` at the head of the list;
returns the raw group text and the total match length. -/
def matchHeadingAt (d : Char) (s : List Char) : Option (List Char × Nat) :=
  match matchOpen d s with
  | none => none
  | some ol =>
    match findClose d (s.drop ol) with
    | none => none
    | some j => some ((s.drop ol).take j, ol + j + 5)

/-- `finditer` over the document: leftmost matches, continuing after each match
(non-overlapping).  Returns (group, start, stop) triples.  Fuel-driven; every
step consumes at least one character, so `s.length + 1` fuel suffices. -/
def finditerAux (d : Char) : Nat → Nat → List Char → List (List Char × Nat × Nat)
  | 0, _, _ => []
  | _, _, [] => []
  | fuel + 1, pos, c :: rest =>
    match matchHeadingAt d (c :: rest) with
    | some (g, len) => (g, pos, pos + len) :: finditerAux d fuel (pos + len) ((c :: rest).drop len)
    | none => finditerAux d fuel (pos + 1) rest

/-- All matches of the level-`d` heading regex in the document. -/
def finditer (d : Char) (s : List Char) : List (List Char × Nat × Nat) :=
  finditerAux d (s.length + 1) 0 s

/-- Insertion into a start-sorted heading list (ascending by `start`). -/
def insertByStart (h : Heading) : List Heading → List Heading
  | [] => [h]
  | x :: xs => if x.start ≤ h.start then x :: insertByStart h xs else h :: x :: xs

/-- Sort headings by `start` offset, `items.sort(key=lambda x: x[2])`. -/
def sortByStart : List Heading → List Heading
  | [] => []
  | h :: t => insertByStart h (sortByStart t)

/-- `_find_heading_positions` from html_frontback_to_tsv.py: all H2 and H3
matches with decoded, tag-stripped titles, merged in document order. -/
def _find_heading_positions (html : List Char) : List Heading :=
  sortByStart
    (((finditer '2' html).map
        (fun m => Heading.mk 2 (_strip_tags (_unescape_basic m.1)) m.2.1 m.2.2)) ++
     ((finditer '3' html).map
        (fun m => Heading.mk 3 (_strip_tags (_unescape_basic m.1)) m.2.1 m.2.2)))

/-- `_slice_section` from html_frontback_to_tsv.py: the stripped content from the
end of heading `i` to the start of the next heading in the list (of any level),
or to document end when heading `i` is the last one. -/
def _slice_section (html : List Char) (hs : List Heading) (i : Nat) : List Char :=
  match hs.drop i with
  | [] => []
  | h :: rest =>
    match rest with
    | [] => pyStrip ((html.drop h.stop).take (html.length - h.stop))
    | h2 :: _ => pyStrip ((html.drop h.stop).take (h2.start - h.stop))

/-- Label of the front sub-section heading. -/
def sAFTER_FRONT : List Char := "AFTER_FRONT".toList

/-- Label of the back sub-section heading. -/
def sAFTER_BACK : List Char := "AFTER_BACK".toList

/-- Default Anki front field name. -/
def sFront : List Char := "Front".toList

/-- Default Anki back field name. -/
def sBack : List Char := "Back".toList

/-- Column name constants of the TSV surfaces. -/
def s_note_id : List Char := "note_id".toList

/-- Column name `noteId`. -/
def s_noteId : List Char := "noteId".toList

/-- Column name `prompt`. -/
def s_prompt : List Char := "prompt".toList

/-- Column name `field`. -/
def s_field : List Char := "field".toList

/-- Column name `answer_html`. -/
def s_answer_html : List Char := "answer_html".toList

/-- Column name `front_html`. -/
def s_front_html : List Char := "front_html".toList

/-- Column name `back_html`. -/
def s_back_html : List Char := "back_html".toList

/-- Column name `model`. -/
def s_model : List Char := "model".toList

/-- Column name `deck`. -/
def s_deck : List Char := "deck".toList

/-- Column name `tags`. -/
def s_tags : List Char := "tags".toList

/-- One output row of html_frontback_to_tsv.py, with exactly the dict keys the
source builds (lines 132-140). -/
structure OutRow where
  note_id : List Char
  noteId : List Char
  prompt : List Char
  field : List Char
  answer_html : List Char
deriving DecidableEq

/-- `fieldnames` of the extraction tool's csv.DictWriter (line 148). -/
def outFieldnames : List (List Char) :=
  [s_note_id, s_noteId, s_prompt, s_field, s_answer_html]

/-- Normalised H3 title, `title.strip().upper()`. -/
def titleNorm (t : List Char) : List Char := toUpperL (pyStrip t)

/-- The row the walk appends for the current note and sub-section. -/
def mkRow (cur : List Char) (noteMap : List (List Char × List Char))
    (fld sec : List Char) : OutRow :=
  { note_id := cur
    noteId := (getAssoc noteMap cur).getD []
    prompt := []
    field := fld
    answer_html := sec }

/-- The heading walk of `main` in html_frontback_to_tsv.py (lines 108-140):
track the current H2 title, emit one row per labelled H3 sub-section with
non-empty sliced content.  `cur = []` models both the initial `None` and an
empty H2 title, which Python treats identically (falsy). -/
def walkAux (html : List Char) (hs : List Heading)
    (noteMap : List (List Char × List Char)) (ff bf : List Char) :
    Nat → List Heading → List Char → List OutRow
  | _, [], _ => []
  | i, h :: rest, cur =>
    if h.lvl = 2 then walkAux html hs noteMap ff bf (i + 1) rest h.title
    else if ¬ (h.lvl = 3) then walkAux html hs noteMap ff bf (i + 1) rest cur
    else if cur = [] then walkAux html hs noteMap ff bf (i + 1) rest cur
    else if titleNorm h.title = sAFTER_FRONT ∨ titleNorm h.title = sAFTER_BACK then
      if _slice_section html hs i = [] then walkAux html hs noteMap ff bf (i + 1) rest cur
      else
        mkRow cur noteMap (if titleNorm h.title = sAFTER_FRONT then ff else bf)
            (_slice_section html hs i)
          :: walkAux html hs noteMap ff bf (i + 1) rest cur
    else walkAux html hs noteMap ff bf (i + 1) rest cur

/-- The full extraction pipeline of html_frontback_to_tsv.py for one document:
scan headings, then walk them accumulating rows. -/
def extractRows (html : List Char) (noteMap : List (List Char × List Char))
    (ff bf : List Char) : List OutRow :=
  walkAux html (_find_heading_positions html) noteMap ff bf 0 (_find_heading_positions html) []

/-- One input row of update_notes_from_tsv.py.  A column absent from the TSV is
modelled as the empty string, matching `r.get(col, "")`. -/
structure URow where
  note_id : List Char
  noteId : List Char
  answer_html : List Char
  front_html : List Char
  back_html : List Char
deriving DecidableEq

/-- State accumulated by the identity resolver: the note_id to noteId mapping it
builds, the sequence of findNotes lookups it issued (one entry per request, in
order), and the ambiguity warnings it printed (query note_id, adopted id). -/
structure ResolveState where
  mapping : List (List Char × Int)
  queries : List (List Char)
  warnings : List (List Char × Int)
deriving DecidableEq

/-- One loop iteration of `resolve_note_ids_from_note_id_field` (lines 119-137):
skip rows whose note_id is empty or whose noteId is already supplied; otherwise
issue one findNotes lookup, adopt the first match (warning when there are
several), and leave the mapping untouched on zero matches. -/
def resolveStep (find : List Char → List Int) (st : ResolveState) (r : URow) : ResolveState :=
  if pyStrip r.note_id = [] ∨ ¬ (pyStrip r.noteId = []) then st
  else
    match find (pyStrip r.note_id) with
    | [] => { st with queries := st.queries ++ [pyStrip r.note_id] }
    | a :: rest =>
      { mapping := setAssoc st.mapping (pyStrip r.note_id) a
        queries := st.queries ++ [pyStrip r.note_id]
        warnings :=
          if rest = [] then st.warnings else st.warnings ++ [(pyStrip r.note_id, a)] }

/-- The resolver's loop over all rows. -/
def resolveList (find : List Char → List Int) : List URow → ResolveState → ResolveState
  | [], st => st
  | r :: rs, st => resolveList find rs (resolveStep find st r)

/-- `resolve_note_ids_from_note_id_field`: fold the per-row step over the input
rows, starting from the empty mapping. -/
def resolve_note_ids_from_note_id_field (find : List Char → List Int)
    (rows : List URow) : ResolveState :=
  resolveList find rows { mapping := [], queries := [], warnings := [] }

/-- Candidate field name `Answer`. -/
def sAnswerU : List Char := "Answer".toList

/-- Candidate field name `answer`. -/
def sAnswerL : List Char := "answer".toList

/-- Candidate field name `back`. -/
def sBackL : List Char := "back".toList

/-- Candidate field name `answer_md`. -/
def sAnswerMd : List Char := "answer_md".toList

/-- Candidate field name `answer_html`. -/
def sAnswerHtml : List Char := "answer_html".toList

/-- Candidate field name `Answer_md`. -/
def sAnswerMdU : List Char := "Answer_md".toList

/-- Candidate field name `Answer_html`. -/
def sAnswerHtmlU : List Char := "Answer_html".toList

/-- Candidate field name `Back_md`. -/
def sBackMdU : List Char := "Back_md".toList

/-- Candidate field name `Back_html`. -/
def sBackHtmlU : List Char := "Back_html".toList

/-- `CANDIDATE_ANSWER_FIELDS` from update_notes_from_tsv.py, in source order. -/
def CANDIDATE_ANSWER_FIELDS : List (List Char) :=
  [sAnswerU, sBack, sAnswerL, sBackL, sAnswerMd, sAnswerHtml,
   sAnswerMdU, sAnswerHtmlU, sBackMdU, sBackHtmlU]

/-- Error message of `choose_answer_field` when the explicit `--field` override
is absent from the note (interpolated details dropped). -/
def errFieldNotPresent : List Char := "field not present on note".toList

/-- Error message of `choose_answer_field` when no field can be auto-detected
(interpolated details dropped). -/
def errCannotAutoDetect : List Char := "Could not auto-detect answer field".toList

/-- Python truthiness of an optional string: `if preferred:`. -/
def truthy (o : Option (List Char)) : Bool := ¬ (o.getD [] = [])

/-- Python `a or b` for an optional string with a default, `args.front_field or "Front"`. -/
def orDefault (o : Option (List Char)) (d : List Char) : List Char :=
  if o.getD [] = [] then d else o.getD []

/-- The candidate scan of `choose_answer_field` (lines 91-93): first candidate
present among the note's field names. -/
def findFirstPresent (cands : List (List Char)) (flds : List (List Char)) : Option (List Char) :=
  match cands with
  | [] => none
  | c :: cs => if keyMem flds c then some c else findFirstPresent cs flds

/-- `choose_answer_field` from update_notes_from_tsv.py: explicit override first
(error when absent), then the candidate list, then the positional second field
when there are exactly two, else an auto-detect error. -/
def choose_answer_field (note_fields : List (List Char)) (preferred : Option (List Char)) :
    Except (List Char) (List Char) :=
  if truthy preferred then
    if keyMem note_fields (preferred.getD []) then Except.ok (preferred.getD [])
    else Except.error errFieldNotPresent
  else
    match findFirstPresent CANDIDATE_ANSWER_FIELDS note_fields with
    | some c => Except.ok c
    | none =>
      if note_fields.length = 2 then
        match note_fields.get? 1 with
        | some k => Except.ok k
        | none => Except.error errCannotAutoDetect
      else Except.error errCannotAutoDetect

/-- Skip reasons of the per-row reconciliation in `main` of
update_notes_from_tsv.py, one per SKIP print. -/
inductive SkipReason where
  | noNoteId
  | targetMissing
  | frontFieldMissing
  | backFieldDetectError
  | fieldDetectError
  | noContent
deriving DecidableEq

/-- Outcome of reconciling one row: a skip with its reason, or a prepared
update `{"id": noteId, "fields": fields_to_update}`. -/
inductive RowResult where
  | skip : SkipReason → RowResult
  | update : Int → List (List Char × List Char) → RowResult
deriving DecidableEq

/-- Final step shared by both content modes: `if not fields_to_update: skip`
else append the update record. -/
def finishUpdate (noteId : Int) (ftu : List (List Char × List Char)) : RowResult :=
  if ftu = [] then RowResult.skip SkipReason.noContent
  else RowResult.update noteId ftu

/-- The front/back branch of the reconciler (lines 258-279): place the front
content (skipping the whole note when the front field is absent), then choose
the back field, building fields_to_update as a dict. -/
def processFrontBack (noteId : Int) (flds : List (List Char))
    (front back : List Char) (ffa bfa : Option (List Char)) : RowResult :=
  if front = [] ∨ keyMem flds (orDefault ffa sFront) then
    let ftu := if front = [] then ([] : List (List Char × List Char))
               else setAssoc [] (orDefault ffa sFront) front
    if back = [] then finishUpdate noteId ftu
    else
      match choose_answer_field flds bfa with
      | Except.error _ => RowResult.skip SkipReason.backFieldDetectError
      | Except.ok bt => finishUpdate noteId (setAssoc ftu bt back)
  else RowResult.skip SkipReason.frontFieldMissing

/-- One iteration of the reconciliation loop in `main` (lines 223-300): resolve
the noteId (supplied value verbatim, else the resolver's mapping), fetch the
target's field names from `infoMap`, unescape the content columns, and decide
between skip and update.  `infoMap` stands for the notesInfo fetch keyed by
noteId; `int(...)` on the digit strings is `charsToInt`. -/
def processRow (resolved : List (List Char × Int))
    (infoMap : Int → Option (List (List Char)))
    (ffa bfa fa : Option (List Char)) (r : URow) : RowResult :=
  let ns :=
    if pyStrip r.noteId = [] ∧ ¬ (pyStrip r.note_id = []) then
      match getAssoc resolved (pyStrip r.note_id) with
      | some n => intToChars n
      | none => pyStrip r.noteId
    else pyStrip r.noteId
  if ns = [] then RowResult.skip SkipReason.noNoteId
  else
    match infoMap (charsToInt ns) with
    | none => RowResult.skip SkipReason.targetMissing
    | some flds =>
      if ¬ (_nl r.front_html = []) ∨ ¬ (_nl r.back_html = []) then
        processFrontBack (charsToInt ns) flds (_nl r.front_html) (_nl r.back_html) ffa bfa
      else
        if _nl r.answer_html = [] then RowResult.skip SkipReason.noContent
        else
          match choose_answer_field flds fa with
          | Except.error _ => RowResult.skip SkipReason.fieldDetectError
          | Except.ok tf => finishUpdate (charsToInt ns) (setAssoc [] tf (_nl r.answer_html))

/-- A prepared update record. -/
structure Update where
  id : Int
  fields : List (List Char × List Char)
deriving DecidableEq

/-- An outbound AnkiConnect write, one `updateNoteFields` request per note. -/
inductive SentRequest where
  | updateNoteFields : Update → SentRequest
deriving DecidableEq

/-- Literal prefix of a dry-run preview line. -/
def sDry1 : List Char := "DRY RUN: noteId=".toList

/-- Literal middle piece of a dry-run preview line. -/
def sDry2 : List Char := " field=".toList

/-- Literal last piece of a dry-run preview line. -/
def sDry3 : List Char := " value[:120]=".toList

/-- Closing dry-run message. -/
def sDryRunComplete : List Char := "Dry-run complete (no changes sent).".toList

/-- Message when there is nothing to update. -/
def sNothingMsg : List Char := "Nothing to update.".toList

/-- Completion message of the write loop (emoji dropped). -/
def sDoneMsg : List Char := "updateNoteFields complete (no error).".toList

/-- One preview line of the dry run: the value is truncated to its first 120
characters, then newlines are escaped for display (lines 309-311). -/
def previewLine (id : Int) (name value : List Char) : List Char :=
  sDry1 ++ intToChars id ++ sDry2 ++ name ++ sDry3 ++ escNl (value.take 120)

/-- The nested preview loops of the dry-run branch (lines 306-311). -/
def previewLines : List Update → List (List Char)
  | [] => []
  | u :: us => u.fields.map (fun p => previewLine u.id p.1 p.2) ++ previewLines us

/-- The apply phase of `main` (lines 305-322): in dry-run mode print a preview
of at most the first three prepared updates and send nothing; otherwise send
one updateNoteFields request per update.  Returns (requests sent, lines printed). -/
def applyPhase (dryRun : Bool) (updates : List Update) :
    List SentRequest × List (List Char) :=
  if dryRun then
    ([], previewLines (updates.take 3) ++ [sDryRunComplete])
  else
    if updates = [] then ([], [sNothingMsg])
    else (updates.map SentRequest.updateNoteFields, [sDoneMsg])

/-- Modelled from the claim's wording for the back-field decision order:
(a) an explicit override is used exactly when present, else the note is
skipped; (b) else the first candidate present; (c) else the second field of a
two-field note; (d) else no choice.  `none` is the skip outcome. -/
def chooseAnswerFieldSpec (flds : List (List Char)) (preferred : Option (List Char)) :
    Option (List Char) :=
  if truthy preferred then
    if (preferred.getD []) ∈ flds then some (preferred.getD []) else none
  else
    match CANDIDATE_ANSWER_FIELDS.find? (fun c => decide (c ∈ flds)) with
    | some c => some c
    | none => if flds.length = 2 then flds.get? 1 else none

/-- Successful value of an Except, for comparing the code's chooser with the
claim's decision order. -/
def exceptOk {ε α : Type} : Except ε α → Option α
  | Except.ok a => some a
  | Except.error _ => none

/-- One loaded CNSF note envelope from cnsf_to_import_tsv.py. -/
structure CnsfEnvelope where
  path : List Char
  note_id : List Char
  noteId : List Char
  model : List Char
  deck : List Char
  tags : List (List Char)
  fields : List (List Char × List Char)
deriving DecidableEq

/-- A file system snapshot: association of paths to file contents. -/
def FSmap : Type := List (List Char × List Char)

/-- Join cells with a separator character. -/
def joinWith (sep : Char) : List (List Char) → List Char
  | [] => []
  | [x] => x
  | x :: y :: t => x ++ sep :: joinWith sep (y :: t)

/-- Header cells of the export TSV (line 132). -/
def headerCells (extra : List (List Char)) : List (List Char) :=
  [s_note_id, s_noteId, s_model, s_deck, s_tags, s_front_html, s_back_html] ++ extra

/-- One data row of the export TSV (lines 145-161).  `render` is the external
markdown renderer, giving (front_html, back_html) per source path.  The csv
QUOTE_MINIMAL quoting is not modelled; after `_tsv_safe` the payload cells are
newline- and tab-free. -/
def envRow (render : List Char → List Char × List Char) (extra : List (List Char))
    (env : CnsfEnvelope) : List (List Char) :=
  [env.note_id, env.noteId, env.model, env.deck, joinWith ' ' env.tags,
   _tsv_safe (render env.path).1, _tsv_safe (render env.path).2] ++
  extra.map (fun k => _tsv_safe ((getAssoc env.fields k).getD []))

/-- The full text written by `write_tsv` when it does write. -/
def renderTsvContent (render : List Char → List Char × List Char)
    (notes : List CnsfEnvelope) (extra : List (List Char)) : List Char :=
  (joinWith '\t' (headerCells extra) ++ ['\n']) ++
  (notes.map (fun e => joinWith '\t' (envRow render extra e) ++ ['\n'])).flatten

/-- Error message of the overwrite guard (path interpolation dropped). -/
def errRefusing : List Char := "Refusing to overwrite existing file".toList

/-- `write_tsv` from cnsf_to_import_tsv.py (lines 126-161): when the output path
already exists and overwrite is off, raise before any directory creation or
file open, leaving the file system untouched; otherwise write header and rows.
Returns the resulting file system and the normal-or-raised outcome. -/
def write_tsv (fs : FSmap) (outPath : List Char)
    (render : List Char → List Char × List Char) (notes : List CnsfEnvelope)
    (extra : List (List Char)) (overwrite : Bool) : FSmap × Except (List Char) Unit :=
  if (getAssoc fs outPath).isSome = true ∧ overwrite = false then
    (fs, Except.error errRefusing)
  else
    (setAssoc fs outPath (renderTsvContent render notes extra), Except.ok ())

/-- Demo document: one note with both labels and a trailing horizontal rule. -/
def demoBoth : List Char :=
  "<h2>N1</h2><h3>AFTER_FRONT</h3>F1<h3>AFTER_BACK</h3>B1<hr>TAIL".toList

/-- Demo document: an empty-text H2 followed by a labelled H3. -/
def demoEmptyH2 : List Char := "<h2></h2><h3>AFTER_FRONT</h3>X".toList

/-- Note id of the demo document. -/
def sN1 : List Char := "N1".toList

/-- Front payload of the demo document. -/
def sF1 : List Char := "F1".toList

/-- What the claim says the demo back content should be. -/
def sB1 : List Char := "B1".toList

/-- What the code actually extracts as the demo back content. -/
def sB1hrTail : List Char := "B1<hr>TAIL".toList

/-- Expected front row of the demo extraction. -/
def demoRow1 : OutRow :=
  { note_id := sN1, noteId := [], prompt := [], field := sFront, answer_html := sF1 }

/-- Expected back row of the demo extraction. -/
def demoRow2 : OutRow :=
  { note_id := sN1, noteId := [], prompt := [], field := sBack, answer_html := sB1hrTail }

/-- The AFTER_BACK heading of the demo document, as the scanner locates it. -/
def hBackDemo : Heading :=
  { lvl := 3, title := sAFTER_BACK, start := 33, stop := 52 }

/-- Counterexample value for the escaping round trip: a literal backslash-n. -/
def cexBS : List Char := "a\\nb".toList

/-- A note_id used by the resolver examples. -/
def sIdA : List Char := "A".toList

/-- A resolver row with note_id `A` and no supplied noteId. -/
def rowDupA : URow :=
  { note_id := sIdA, noteId := [], answer_html := [], front_html := [], back_html := [] }

/-- A lookup that finds exactly note 5 for every query. -/
def findConst5 : List Char → List Int := fun _ => [(5 : Int)]

/-- A lookup that finds notes 5 and 6 for every query (ambiguous). -/
def findConst56 : List Char → List Int := fun _ => [(5 : Int), (6 : Int)]

/-- A lookup that finds nothing. -/
def findNone : List Char → List Int := fun _ => []

/-- Field name `Question`. -/
def sQuestion : List Char := "Question".toList

/-- Field name `Explanation`. -/
def sExplanation : List Char := "Explanation".toList

/-- The digit string 7, a supplied noteId. -/
def s7 : List Char := "7".toList

/-- notesInfo stub: note 7 has fields Front, Question, Explanation. -/
def infoMap3 : Int → Option (List (List Char)) :=
  fun n => if n = 7 then some [sFront, sQuestion, sExplanation] else none

/-- notesInfo stub: note 7 has fields Question and Back (no Front). -/
def infoMapQB : Int → Option (List (List Char)) :=
  fun n => if n = 7 then some [sQuestion, sBack] else none

/-- A row with supplied noteId 7 and only back content. -/
def rowBackOnly : URow :=
  { note_id := sN1, noteId := s7, answer_html := [],
    front_html := [], back_html := sB1 }

/-- A row with supplied noteId 7 and both front and back content. -/
def rowFrontBack : URow :=
  { note_id := sN1, noteId := s7, answer_html := [],
    front_html := sF1, back_html := sB1 }

/-- An empty resolver state. -/
def st0 : ResolveState := { mapping := [], queries := [], warnings := [] }

/-- Demo output path for the exporter. -/
def sPathA : List Char := "out.tsv".toList

/-- Pre-existing contents at the demo output path. -/
def sOld : List Char := "old contents".toList

/-- A file system where the demo output path already exists. -/
def fs0 : FSmap := [(sPathA, sOld)]

/-- A renderer stub for the exporter. -/
def renderStub : List Char → List Char × List Char := fun _ => ([], [])

/-- Modelled from the amended claim's wording: the lookups a resolver run
issues, one per input row whose note_id is non-empty and whose supplied target
id is empty — with no memoisation across rows. -/
def queriesOf : List URow → List (List Char)
  | [] => []
  | r :: rs =>
    if pyStrip r.note_id = [] ∨ ¬ (pyStrip r.noteId = []) then queriesOf rs
    else pyStrip r.note_id :: queriesOf rs

end Anki

namespace Anki

theorem crlf2lf_of_not_mem {s : List Char} (h : '\r' ∉ s) : crlf2lf s = s := by
  induction s with
  | nil => rfl
  | cons c cs ih =>
    have hc : c ≠ '\r' := by
      intro hc; exact h (hc ▸ List.mem_cons_self c cs)
    have hcs : '\r' ∉ cs := fun hm => h (List.mem_cons_of_mem c hm)
    cases cs with
    | nil => rfl
    | cons d rest =>
      simp only [crlf2lf]
      rw [if_neg (fun hand => hc hand.1)]
      rw [ih hcs]

theorem cr2lf_of_not_mem {s : List Char} (h : '\r' ∉ s) : cr2lf s = s := by
  induction s with
  | nil => rfl
  | cons c cs ih =>
    have hc : c ≠ '\r' := by
      intro hc; exact h (hc ▸ List.mem_cons_self c cs)
    have hcs : '\r' ∉ cs := fun hm => h (List.mem_cons_of_mem c hm)
    simp only [cr2lf]
    rw [if_neg (fun he => hc he), ih hcs]

theorem escTab_of_not_mem {s : List Char} (h : '\t' ∉ s) : escTab s = s := by
  induction s with
  | nil => rfl
  | cons c cs ih =>
    have hc : c ≠ '\t' := by
      intro hc; exact h (hc ▸ List.mem_cons_self c cs)
    have hcs : '\t' ∉ cs := fun hm => h (List.mem_cons_of_mem c hm)
    simp only [escTab]
    rw [if_neg (fun he => hc he), ih hcs]

theorem nl_cons {c : Char} (s : List Char) (hc : c ≠ '\\') :
    _nl (c :: s) = c :: _nl s := by
  cases s with
  | nil => rfl
  | cons d rest =>
    simp only [_nl]
    rw [if_neg (fun hand => hc hand.1)]

theorem nl_escNl {s : List Char} (h : '\\' ∉ s) : _nl (escNl s) = s := by
  induction s with
  | nil => rfl
  | cons c cs ih =>
    have hc : c ≠ '\\' := by
      intro hc; exact h (hc ▸ List.mem_cons_self c cs)
    have hcs : '\\' ∉ cs := fun hm => h (List.mem_cons_of_mem c hm)
    by_cases hn : c = '\n'
    · subst hn
      have h1 : escNl ('\n' :: cs) = '\\' :: 'n' :: escNl cs := by simp [escNl]
      have h2 : _nl ('\\' :: 'n' :: escNl cs) = '\n' :: _nl (escNl cs) := by simp [_nl]
      rw [h1, h2, ih hcs]
    · simp only [escNl]
      rw [if_neg hn, nl_cons _ hc, ih hcs]

/-- Claim C4 counterexample: the source value `a\nb` (with a literal
backslash-n two-character sequence) is written unchanged by `_tsv_safe`, but the
reader `_nl` turns the sequence into a newline, so the round trip does not
recover the original and the literal sequence is not preserved verbatim. -/
theorem c4_counterexample :
    _nl (_tsv_safe cexBS) ≠ cexBS ∧ _nl (_tsv_safe cexBS) = ['a', '\n', 'b'] := by
  constructor
  · decide
  · decide

/-- Claim C4, amended: for every string containing no backslash, no tab and no
carriage return, writing through `_tsv_safe` and reading back through `_nl`
recovers the original exactly; in particular embedded newlines round-trip.
A literal backslash-n sequence in the source is not preserved verbatim: the
reader converts it to a newline (and tab or carriage-return bearing values do
not round-trip either). -/
theorem c4_roundtrip (s : List Char)
    (hb : '\\' ∉ s) (ht : '\t' ∉ s) (hr : '\r' ∉ s) :
    _nl (_tsv_safe s) = s := by
  have hcrlf : crlf2lf s = s := crlf2lf_of_not_mem hr
  have hcr : cr2lf s = s := cr2lf_of_not_mem hr
  have htab : escTab s = s := escTab_of_not_mem ht
  unfold _tsv_safe
  rw [hcrlf, hcr, htab]
  exact nl_escNl hb

/-- Claim C4 witness: a value with an embedded newline satisfies the
hypotheses and round-trips exactly. -/
theorem c4_witness :
    ('\\' ∉ ['a', '\n', 'b'] ∧ '\t' ∉ ['a', '\n', 'b'] ∧ '\r' ∉ ['a', '\n', 'b']) ∧
    _nl (_tsv_safe ['a', '\n', 'b']) = ['a', '\n', 'b'] :=
  ⟨⟨by decide, by decide, by decide⟩,
   c4_roundtrip ['a', '\n', 'b'] (by decide) (by decide) (by decide)⟩

/-- Claim C1 counterexample: in a note whose body holds both labels and a
trailing horizontal rule (`...AFTER_BACK</h3>B1<hr>TAIL`), the claim says the
back content is the trimmed text before the rule, `B1`; the code extracts up to
the next heading or section end, so the rule and everything after it stay in
the back content: `B1<hr>TAIL`. -/
theorem c1_counterexample :
    (extractRows demoBoth [] sFront sBack).map OutRow.answer_html = [sF1, sB1hrTail] ∧
    sB1hrTail ≠ sB1 :=
  ⟨by decide, by decide⟩

/-- Claim C1, amended: front content is the trimmed text between the end of the
front marker and the start of the next heading (the back marker when it is
next); back content is the trimmed text between the end of the back marker and
the start of the next heading of any level, or the document end if none
follows.  A horizontal-rule marker is not a delimiter and remains inside the
content.  The general conjunct states the slice bounds for any heading list;
the concrete conjunct runs the full pipeline on the demo document. -/
theorem c1_section_bounds :
    (∀ (html : List Char) (hs : List Heading) (i : Nat) (h : Heading) (rest : List Heading),
        hs.drop i = h :: rest →
        _slice_section html hs i =
          pyStrip ((html.take ((rest.head?.map Heading.start).getD html.length)).drop h.stop)) ∧
    extractRows demoBoth [] sFront sBack = [demoRow1, demoRow2] := by
  constructor
  · intro html hs i h rest hd
    cases rest with
    | nil =>
      have hm : _slice_section html hs i =
          pyStrip ((html.drop h.stop).take (html.length - h.stop)) := by
        unfold _slice_section
        rw [hd]
      rw [hm]
      simp only [List.head?, Option.map, Option.getD]
      have h1 : (html.drop h.stop).take (html.length - h.stop) = html.drop h.stop :=
        List.take_of_length_le (by rw [List.length_drop])
      rw [h1, List.take_length]
    | cons h2 t =>
      have hm : _slice_section html hs i =
          pyStrip ((html.drop h.stop).take (h2.start - h.stop)) := by
        unfold _slice_section
        rw [hd]
      rw [hm]
      simp only [List.head?, Option.map, Option.getD]
      rw [List.drop_take]
  · decide

/-- Claim C1 witness: the slice-bounds conjunct applied to the demo document's
own heading list at the AFTER_BACK heading (the last heading, so the slice runs
to document end). -/
theorem c1_witness :
    (_find_heading_positions demoBoth).drop 2 = [hBackDemo] ∧
    _slice_section demoBoth (_find_heading_positions demoBoth) 2 =
      pyStrip ((demoBoth.take ((([] : List Heading).head?.map Heading.start).getD demoBoth.length)).drop hBackDemo.stop) :=
  ⟨by decide,
   c1_section_bounds.1 demoBoth (_find_heading_positions demoBoth) 2 hBackDemo [] (by decide)⟩

theorem walkAux_mem_props (html : List Char) (hs : List Heading)
    (noteMap : List (List Char × List Char)) (ff bf : List Char) :
    ∀ (rem : List Heading) (i : Nat) (cur : List Char) (r : OutRow),
      r ∈ walkAux html hs noteMap ff bf i rem cur →
      ¬ (r.note_id = []) ∧ r.prompt = [] ∧ (r.field = ff ∨ r.field = bf) ∧
      ¬ (r.answer_html = []) ∧ r.noteId = (getAssoc noteMap r.note_id).getD [] := by
  intro rem
  induction rem with
  | nil =>
    intro i cur r hr
    simp [walkAux] at hr
  | cons h rest ih =>
    intro i cur r hr
    simp only [walkAux] at hr
    split_ifs at hr with h1 h2 h3 h4 h5 h6
    · exact ih _ _ r hr
    · exact ih _ _ r hr
    · exact ih _ _ r hr
    · rcases List.mem_cons.mp hr with hre | hr
      · subst hre
        exact ⟨h3, rfl, Or.inl rfl, ‹¬ _slice_section html hs i = []›, rfl⟩
      · exact ih _ _ r hr
    · rcases List.mem_cons.mp hr with hre | hr
      · subst hre
        exact ⟨h3, rfl, Or.inr rfl, ‹¬ _slice_section html hs i = []›, rfl⟩
      · exact ih _ _ r hr
    · exact ih _ _ r hr
    · exact ih _ _ r hr

/-- Claim C2 counterexample: the extraction tool's csv.DictWriter fieldnames are
note_id, noteId, prompt, field, answer_html — not the claimed columns
note_id, noteId, front_html, back_html, answer_html. -/
theorem c2_counterexample :
    outFieldnames ≠ [s_note_id, s_noteId, s_front_html, s_back_html, s_answer_html] := by
  decide

/-- Claim C2, amended: the extraction tool's output TSV has exactly the columns
note_id, noteId, prompt, field, answer_html; one row is emitted per labelled
sub-section with non-empty sliced content, and in every written row prompt is
empty, field is the configured front or back field name, answer_html is that
sub-section's (non-empty) content, and noteId is the supplied mapping's value
for note_id, empty when unmapped. -/
theorem c2_columns_and_rows :
    outFieldnames = [s_note_id, s_noteId, s_prompt, s_field, s_answer_html] ∧
    ∀ (html : List Char) (noteMap : List (List Char × List Char)) (ff bf : List Char)
      (r : OutRow), r ∈ extractRows html noteMap ff bf →
      r.prompt = [] ∧ (r.field = ff ∨ r.field = bf) ∧ ¬ (r.answer_html = []) ∧
      r.noteId = (getAssoc noteMap r.note_id).getD [] := by
  refine ⟨rfl, ?_⟩
  intro html noteMap ff bf r hr
  have hp := walkAux_mem_props html (_find_heading_positions html) noteMap ff bf
    (_find_heading_positions html) 0 [] r hr
  exact ⟨hp.2.1, hp.2.2.1, hp.2.2.2.1, hp.2.2.2.2⟩

/-- Claim C2 witness: the front row of the demo extraction has the stated
shape. -/
theorem c2_witness :
    demoRow1 ∈ extractRows demoBoth [] sFront sBack ∧
    (demoRow1.prompt = [] ∧ (demoRow1.field = sFront ∨ demoRow1.field = sBack) ∧
     ¬ (demoRow1.answer_html = []) ∧
     demoRow1.noteId = (getAssoc [] demoRow1.note_id).getD []) :=
  ⟨by decide, c2_columns_and_rows.2 demoBoth [] sFront sBack demoRow1 (by decide)⟩

/-- Claim C8: an H2 heading with empty decoded text never yields an output row —
no emitted row has an empty note_id, and labelled H3 sub-sections under an
empty-text H2 are not extracted.  The concrete conjunct runs the pipeline on a
document with an empty H2 followed by a labelled H3. -/
theorem c8_no_empty_note_id :
    (∀ (html : List Char) (noteMap : List (List Char × List Char)) (ff bf : List Char)
       (r : OutRow), r ∈ extractRows html noteMap ff bf → ¬ (r.note_id = [])) ∧
    extractRows demoEmptyH2 [] sFront sBack = [] := by
  constructor
  · intro html noteMap ff bf r hr
    exact (walkAux_mem_props html (_find_heading_positions html) noteMap ff bf
      (_find_heading_positions html) 0 [] r hr).1
  · decide

/-- Claim C8 witness: the demo front row is an emitted row and indeed has a
non-empty note_id. -/
theorem c8_witness :
    demoRow1 ∈ extractRows demoBoth [] sFront sBack ∧ ¬ (demoRow1.note_id = []) :=
  ⟨by decide, c8_no_empty_note_id.1 demoBoth [] sFront sBack demoRow1 (by decide)⟩

theorem resolveStep_queries (find : List Char → List Int) (st : ResolveState) (r : URow) :
    (resolveStep find st r).queries =
      st.queries ++
        (if pyStrip r.note_id = [] ∨ ¬ (pyStrip r.noteId = []) then []
         else [pyStrip r.note_id]) := by
  unfold resolveStep
  by_cases hg : pyStrip r.note_id = [] ∨ ¬ (pyStrip r.noteId = [])
  · rw [if_pos hg, if_pos hg, List.append_nil]
  · rw [if_neg hg, if_neg hg]
    cases hfind : find (pyStrip r.note_id) with
    | nil => rfl
    | cons a rest => rfl

theorem resolveList_queries (find : List Char → List Int) :
    ∀ (rows : List URow) (st : ResolveState),
      (resolveList find rows st).queries = st.queries ++ queriesOf rows := by
  intro rows
  induction rows with
  | nil => intro st; simp [resolveList, queriesOf]
  | cons r rs ih =>
    intro st
    rw [resolveList, ih, resolveStep_queries]
    by_cases hg : pyStrip r.note_id = [] ∨ ¬ (pyStrip r.noteId = [])
    · rw [if_pos hg, List.append_nil, queriesOf, if_pos hg]
    · rw [if_neg hg, queriesOf, if_neg hg, List.append_assoc]
      rfl

/-- Claim C3 counterexample: two rows share note_id `A`, both with an empty
supplied target id; the resolver issues two findNotes lookups for `A` in the
same run, so at most one lookup per note_id is violated (there is no
memoisation). -/
theorem c3_counterexample :
    (resolve_note_ids_from_note_id_field findConst5 [rowDupA, rowDupA]).queries
        = [sIdA, sIdA] ∧
    ¬ ((resolve_note_ids_from_note_id_field findConst5 [rowDupA, rowDupA]).queries.count sIdA
        ≤ 1) :=
  ⟨by decide, by decide⟩

/-- Claim C3, amended: during one run the resolver issues exactly one lookup
request per input row whose supplied target id is empty and whose note_id is
non-empty — so several rows sharing a note_id each trigger their own lookup;
results are not memoised.  Rows with a supplied target id or an empty note_id
issue no lookup. -/
theorem c3_one_query_per_row (find : List Char → List Int) (rows : List URow) :
    (resolve_note_ids_from_note_id_field find rows).queries = queriesOf rows := by
  unfold resolve_note_ids_from_note_id_field
  rw [resolveList_queries]
  rfl

theorem keyMem_iff (l : List (List Char)) (a : List Char) : keyMem l a = true ↔ a ∈ l := by
  induction l with
  | nil => simp [keyMem]
  | cons x xs ih =>
    simp only [keyMem]
    by_cases hx : x = a
    · simp [hx]
    · rw [if_neg hx]
      constructor
      · intro h; exact List.mem_cons_of_mem x (ih.mp h)
      · intro h
        rcases List.mem_cons.mp h with h1 | h2
        · exact absurd h1.symm hx
        · exact ih.mpr h2

theorem findFirstPresent_eq (cands flds : List (List Char)) :
    findFirstPresent cands flds = cands.find? (fun c => decide (c ∈ flds)) := by
  induction cands with
  | nil => rfl
  | cons c cs ih =>
    cases hk : keyMem flds c with
    | true =>
      have hc : c ∈ flds := (keyMem_iff flds c).mp hk
      simp [findFirstPresent, hk, List.find?, hc]
    | false =>
      have hc : c ∉ flds := fun h => by simp [(keyMem_iff flds c).mpr h] at hk
      simp [findFirstPresent, hk, List.find?, hc, ih]

/-- Claim C5: for a note with non-empty back content the back field is chosen
in exactly the claimed order — (a) an explicit override is used when present
and otherwise errors (skipping the note even when a candidate name is
present); (b) else the first present name of the fixed candidate list; (c)
else the second field of an exactly-two-field target; (d) else an
auto-detect error.  The first conjunct proves the code's chooser equal to a
decision procedure written from the claim's wording; the last conjunct runs
the reconciler on the spec's own three-field example, yielding the
cannot-auto-detect skip. -/
theorem c5_back_field_order :
    (∀ (flds : List (List Char)) (pref : Option (List Char)),
        exceptOk (choose_answer_field flds pref) = chooseAnswerFieldSpec flds pref) ∧
    (∀ (flds : List (List Char)) (p : List Char), ¬ (p = []) → p ∉ flds →
        choose_answer_field flds (some p) = Except.error errFieldNotPresent) ∧
    (∀ (flds : List (List Char)) (pref : Option (List Char)), truthy pref = false →
        findFirstPresent CANDIDATE_ANSWER_FIELDS flds = none → ¬ (flds.length = 2) →
        choose_answer_field flds pref = Except.error errCannotAutoDetect) ∧
    processRow [] infoMap3 none none none rowBackOnly
      = RowResult.skip SkipReason.backFieldDetectError := by
  refine ⟨?_, ?_, ?_, by decide⟩
  · intro flds pref
    unfold choose_answer_field chooseAnswerFieldSpec
    cases ht : truthy pref with
    | true =>
      cases hk : keyMem flds (pref.getD []) with
      | true =>
        have hc : pref.getD [] ∈ flds := (keyMem_iff _ _).mp hk
        simp [ht, hk, hc, exceptOk]
      | false =>
        have hc : pref.getD [] ∉ flds := fun h => by simp [(keyMem_iff _ _).mpr h] at hk
        simp [ht, hk, hc, exceptOk]
    | false =>
      rw [← findFirstPresent_eq]
      cases hf : findFirstPresent CANDIDATE_ANSWER_FIELDS flds with
      | some c => simp [ht, hf, exceptOk]
      | none =>
        by_cases hl : flds.length = 2
        · cases hg : flds.get? 1 with
          | some k => simp [ht, hf, hl, hg, exceptOk]
          | none => simp [ht, hf, hl, hg, exceptOk]
        · simp [ht, hf, hl, exceptOk]
  · intro flds p hp hnp
    have ht : truthy (some p) = true := by simp [truthy, hp]
    have hk : keyMem flds p = false := by
      cases hk : keyMem flds p with
      | true => exact absurd ((keyMem_iff _ _).mp hk) hnp
      | false => rfl
    unfold choose_answer_field
    simp [ht, hk]
  · intro flds pref ht hf hl
    unfold choose_answer_field
    simp [ht, hf, hl]

/-- Claim C5 witness: the chooser refinement at a two-field target; an absent
override erroring even though the candidate `Back` is present; and the spec's
three-field auto-detect failure. -/
theorem c5_witness :
    exceptOk (choose_answer_field [sFront, sBack] none)
        = chooseAnswerFieldSpec [sFront, sBack] none ∧
    (¬ (sQuestion = []) ∧ sQuestion ∉ [sFront, sBack] ∧
      choose_answer_field [sFront, sBack] (some sQuestion)
        = Except.error errFieldNotPresent) ∧
    (truthy (none : Option (List Char)) = false ∧
      findFirstPresent CANDIDATE_ANSWER_FIELDS [sFront, sQuestion, sExplanation] = none ∧
      ¬ ([sFront, sQuestion, sExplanation].length = 2) ∧
      choose_answer_field [sFront, sQuestion, sExplanation] none
        = Except.error errCannotAutoDetect) :=
  ⟨c5_back_field_order.1 [sFront, sBack] none,
   ⟨by decide, by decide,
    c5_back_field_order.2.1 [sFront, sBack] sQuestion (by decide) (by decide)⟩,
   ⟨by decide, by decide, by decide,
    c5_back_field_order.2.2.1 [sFront, sQuestion, sExplanation] none
      (by decide) (by decide) (by decide)⟩⟩

/-- Claim C6: when a row has non-empty front content and the chosen front field
name (explicit override, else the default `Front`) is absent from the target's
fields, the reconciler skips the entire note — no update record is emitted,
not even a back-only one. -/
theorem c6_front_missing_skips (resolved : List (List Char × Int))
    (infoMap : Int → Option (List (List Char)))
    (ffa bfa fa : Option (List Char)) (r : URow) (flds : List (List Char))
    (hns : ¬ (pyStrip r.noteId = []))
    (hinfo : infoMap (charsToInt (pyStrip r.noteId)) = some flds)
    (hfront : ¬ (_nl r.front_html = []))
    (hmiss : keyMem flds (orDefault ffa sFront) = false) :
    processRow resolved infoMap ffa bfa fa r = RowResult.skip SkipReason.frontFieldMissing ∧
    ∀ (n : Int) (ftu : List (List Char × List Char)),
      ¬ (processRow resolved infoMap ffa bfa fa r = RowResult.update n ftu) := by
  have h1 : processRow resolved infoMap ffa bfa fa r
      = RowResult.skip SkipReason.frontFieldMissing := by
    have hcond : ¬ (pyStrip r.noteId = [] ∧ ¬ (pyStrip r.note_id = [])) :=
      fun hand => hns hand.1
    simp only [processRow, if_neg hcond, if_neg hns, hinfo]
    rw [if_pos (Or.inl hfront :
      (¬ (_nl r.front_html = []) ∨ ¬ (_nl r.back_html = [])))]
    simp only [processFrontBack]
    rw [if_neg (fun hor => hor.elim hfront (fun hk => by rw [hmiss] at hk; cases hk))]
  refine ⟨h1, ?_⟩
  intro n ftu he
  rw [h1] at he
  cases he

/-- Claim C6 witness: a row with both front and back content, targeting a note
whose fields are Question and Back — the back could be placed, but the missing
Front field skips the whole note. -/
theorem c6_witness :
    (¬ (pyStrip rowFrontBack.noteId = []) ∧
     infoMapQB (charsToInt (pyStrip rowFrontBack.noteId)) = some [sQuestion, sBack] ∧
     ¬ (_nl rowFrontBack.front_html = []) ∧
     keyMem [sQuestion, sBack] (orDefault none sFront) = false) ∧
    processRow [] infoMapQB none none none rowFrontBack
      = RowResult.skip SkipReason.frontFieldMissing :=
  ⟨⟨by decide, by decide, by decide, by decide⟩,
   (c6_front_missing_skips [] infoMapQB none none none rowFrontBack [sQuestion, sBack]
      (by decide) (by decide) (by decide) (by decide)).1⟩

/-- Claim C7: the resolver's outcome handling: a pair with a non-empty supplied
target id is never looked up and never overwritten (the resolver leaves its
state untouched and the reconciler ignores the resolved mapping entirely);
with an empty supplied id, one lookup is issued, zero matches leave the
note_id unresolved (mapping and warnings unchanged; downstream the note is
skipped with the no-noteId reason rather than aborting), one match is adopted
silently, and several matches adopt the first id in lookup order with a
non-fatal warning. -/
theorem c7_resolution_policy :
    (∀ (find : List Char → List Int) (st : ResolveState) (r : URow),
        ¬ (pyStrip r.noteId = []) → resolveStep find st r = st) ∧
    (∀ (resolved resolved' : List (List Char × Int))
       (infoMap : Int → Option (List (List Char))) (ffa bfa fa : Option (List Char))
       (r : URow), ¬ (pyStrip r.noteId = []) →
        processRow resolved infoMap ffa bfa fa r = processRow resolved' infoMap ffa bfa fa r) ∧
    (∀ (find : List Char → List Int) (st : ResolveState) (r : URow),
        pyStrip r.noteId = [] → ¬ (pyStrip r.note_id = []) →
        ((resolveStep find st r).queries = st.queries ++ [pyStrip r.note_id]) ∧
        (find (pyStrip r.note_id) = [] →
          (resolveStep find st r).mapping = st.mapping ∧
          (resolveStep find st r).warnings = st.warnings) ∧
        (∀ (a : Int) (t : List Int), find (pyStrip r.note_id) = a :: t →
          (resolveStep find st r).mapping = setAssoc st.mapping (pyStrip r.note_id) a ∧
          (t = [] → (resolveStep find st r).warnings = st.warnings) ∧
          (¬ (t = []) →
            (resolveStep find st r).warnings = st.warnings ++ [(pyStrip r.note_id, a)]))) ∧
    (∀ (resolved : List (List Char × Int)) (infoMap : Int → Option (List (List Char)))
       (ffa bfa fa : Option (List Char)) (r : URow),
        pyStrip r.noteId = [] → getAssoc resolved (pyStrip r.note_id) = none →
        processRow resolved infoMap ffa bfa fa r = RowResult.skip SkipReason.noNoteId) := by
  refine ⟨?_, ?_, ?_, ?_⟩
  · intro find st r hns
    unfold resolveStep
    rw [if_pos (Or.inr hns)]
  · intro resolved resolved' infoMap ffa bfa fa r hns
    have hcond : ¬ (pyStrip r.noteId = [] ∧ ¬ (pyStrip r.note_id = [])) :=
      fun hand => hns hand.1
    simp only [processRow, if_neg hcond]
  · intro find st r hns hnid
    have hguard : ¬ (pyStrip r.note_id = [] ∨ ¬ (pyStrip r.noteId = [])) :=
      fun hor => hor.elim hnid (fun hns' => hns' hns)
    refine ⟨?_, ?_, ?_⟩
    · unfold resolveStep
      rw [if_neg hguard]
      cases hf : find (pyStrip r.note_id) with
      | nil => rfl
      | cons a t => rfl
    · intro hf0
      unfold resolveStep
      rw [if_neg hguard, hf0]
      exact ⟨rfl, rfl⟩
    · intro a t hf
      unfold resolveStep
      rw [if_neg hguard, hf]
      refine ⟨rfl, ?_, ?_⟩
      · intro ht
        simp only [if_pos ht]
      · intro ht
        simp only [if_neg ht]
  · intro resolved infoMap ffa bfa fa r hns0 hres
    by_cases hni : pyStrip r.note_id = []
    · have hcond : ¬ (pyStrip r.noteId = [] ∧ ¬ (pyStrip r.note_id = [])) :=
        fun hand => hand.2 hni
      simp only [processRow, if_neg hcond, if_pos hns0]
    · have hcond : pyStrip r.noteId = [] ∧ ¬ (pyStrip r.note_id = []) := ⟨hns0, hni⟩
      simp only [processRow, if_pos hcond, hres, if_pos hns0]

/-- Claim C7 witness: a supplied-id row is untouched by the resolver and its
reconciliation is independent of the resolved mapping; an ambiguous lookup
(ids 5 and 6) issues one query, adopts 5 and warns; an empty lookup leaves the
mapping unchanged; and the unresolved row reconciles to the no-noteId skip. -/
theorem c7_witness :
    (¬ (pyStrip rowBackOnly.noteId = []) ∧ resolveStep findConst5 st0 rowBackOnly = st0) ∧
    processRow [(sIdA, (9 : Int))] infoMap3 none none none rowBackOnly
      = processRow [] infoMap3 none none none rowBackOnly ∧
    (resolveStep findConst56 st0 rowDupA).queries = st0.queries ++ [pyStrip rowDupA.note_id] ∧
    (resolveStep findConst56 st0 rowDupA).mapping
      = setAssoc st0.mapping (pyStrip rowDupA.note_id) 5 ∧
    (resolveStep findConst56 st0 rowDupA).warnings
      = st0.warnings ++ [(pyStrip rowDupA.note_id, 5)] ∧
    (resolveStep findNone st0 rowDupA).mapping = st0.mapping ∧
    processRow [] infoMap3 none none none rowDupA = RowResult.skip SkipReason.noNoteId :=
  ⟨⟨by decide, c7_resolution_policy.1 findConst5 st0 rowBackOnly (by decide)⟩,
   c7_resolution_policy.2.1 [(sIdA, 9)] [] infoMap3 none none none rowBackOnly (by decide),
   (c7_resolution_policy.2.2.1 findConst56 st0 rowDupA (by decide) (by decide)).1,
   ((c7_resolution_policy.2.2.1 findConst56 st0 rowDupA (by decide) (by decide)).2.2
      5 [6] (by decide)).1,
   ((c7_resolution_policy.2.2.1 findConst56 st0 rowDupA (by decide) (by decide)).2.2
      5 [6] (by decide)).2.2 (by decide),
   ((c7_resolution_policy.2.2.1 findNone st0 rowDupA (by decide) (by decide)).2.1
      (by decide)).1,
   c7_resolution_policy.2.2.2 [] infoMap3 none none none rowDupA (by decide) (by decide)⟩

theorem previewLines_eq (us : List Update) :
    previewLines us
      = (us.map (fun u => u.fields.map (fun p => previewLine u.id p.1 p.2))).flatten := by
  induction us with
  | nil => rfl
  | cons u t ih =>
    simp only [previewLines, List.map, List.flatten_cons, ih]

/-- Claim C9: in dry-run mode the apply phase sends no updateNoteFields request
at all, however many updates were prepared, and instead prints a bounded
preview: one line per field of at most the first three pending updates, each
value truncated to its first 120 characters with newlines escaped for
display. -/
theorem c9_dry_run_no_writes (updates : List Update) :
    (applyPhase true updates).1 = [] ∧
    (applyPhase true updates).2 =
      ((updates.take 3).map
        (fun u => u.fields.map (fun p =>
          sDry1 ++ intToChars u.id ++ sDry2 ++ p.1 ++ sDry3 ++ escNl (p.2.take 120)))).flatten
      ++ [sDryRunComplete] := by
  have h : applyPhase true updates
      = ([], previewLines (updates.take 3) ++ [sDryRunComplete]) := rfl
  rw [h]
  refine ⟨rfl, ?_⟩
  rw [previewLines_eq]
  simp only [previewLine]

/-- Claim C10: when the output path already exists and the overwrite flag is
off, the exporter's TSV writer raises the refusal error before creating
directories or opening the file, and the file system (in particular the
existing file's contents) is left unchanged. -/
theorem c10_overwrite_guard (fs : FSmap) (outPath : List Char)
    (render : List Char → List Char × List Char) (notes : List CnsfEnvelope)
    (extra : List (List Char)) (hex : (getAssoc fs outPath).isSome = true) :
    (write_tsv fs outPath render notes extra false).1 = fs ∧
    (write_tsv fs outPath render notes extra false).2 = Except.error errRefusing := by
  unfold write_tsv
  rw [if_pos ⟨hex, rfl⟩]
  exact ⟨rfl, rfl⟩

/-- Claim C10 witness: a file system holding old contents at the output path;
the writer errors and the snapshot is unchanged. -/
theorem c10_witness :
    (getAssoc fs0 sPathA).isSome = true ∧
    (write_tsv fs0 sPathA renderStub [] [] false).1 = fs0 ∧
    (write_tsv fs0 sPathA renderStub [] [] false).2 = Except.error errRefusing :=
  ⟨by decide,
   (c10_overwrite_guard fs0 sPathA renderStub [] [] (by decide)).1,
   (c10_overwrite_guard fs0 sPathA renderStub [] [] (by decide)).2⟩

end Anki
